import Mathlib

namespace SSHStorageModel

/-!
Verification model of the `django_ssh_storage` repository.

Python strings are embedded as `List Char`.  The remote SFTP server
(the paramiko capability boundary) is modelled as a finite file system
holding a list of directories and a list of files, each keyed by the
parsed component list of its absolute path.  The repository's functions
(`SSHClientManager.mkdir`, `SSHClientManager.upload`,
`SSHClientManager.close_connection`, the `sftp` lazy accessor,
`MultipleSSHStorages._put_file`, `MultipleSSHStorages.exists`,
`SSHStorage._decode_location`, `SSHStorage._add_to_basepath`,
`SSHStorage.url`) are translated function by function.
-/

/-- Shorthand turning a string literal into the `List Char` embedding. -/
def s (x : String) : List Char := x.toList

/-! ### Python `str.split(os.path.sep)` and `os.path.join` on POSIX -/

/-- Python `p.split('/')`: `"".split('/') = ['']`, separators produce empty
pieces on both sides. -/
def pySplit : List Char → List (List Char)
  | [] => [[]]
  | c :: rest =>
    let r := pySplit rest
    if c = '/' then [] :: r
    else
      match r with
      | h :: t => (c :: h) :: t
      | [] => [[c]]

/-- Python `os.path.join(a, b)` for exactly two POSIX path pieces. -/
def joinOne (a b : List Char) : List Char :=
  if b.head? = some '/' then b
  else if a = [] ∨ a.getLast? = some '/' then a ++ b
  else a ++ '/' :: b

/-- Python `os.path.join('/', *parts)`, as used by the recursive branch of
`SSHClientManager.mkdir`. -/
def osJoinList (parts : List (List Char)) : List Char :=
  parts.foldl joinOne ['/']

/-- Canonical absolute POSIX path built from slash-free components:
`glue [c1, ..., ck] = "/c1/.../ck"` (and `glue [] = ""`). -/
def glue (cs : List (List Char)) : List Char :=
  (cs.map (fun c => '/' :: c)).flatten

/-- The component view of a path string: split on `'/'` and drop empty
pieces.  This is how the model server keys directories and files. -/
def parsePath (p : List Char) : List (List Char) :=
  (pySplit p).filter (fun c => c ≠ [])

/-- A component is usable in a canonical path: nonempty and slash-free. -/
def goodComp (c : List Char) : Prop := c ≠ [] ∧ '/' ∉ c

/-! ### Model of the remote SFTP server (the paramiko capability boundary) -/

/-- Remote file-system state: directories and files, keyed by the parsed
component list of their absolute path; files carry byte content. -/
structure RemoteFs where
  dirs : List (List (List Char))
  files : List ((List (List Char)) × List Nat)
deriving DecidableEq

/-- Whether the parsed path `c` names an existing directory or file. -/
def hasEntry (fs : RemoteFs) (c : List (List Char)) : Bool :=
  decide (c ∈ fs.dirs) || fs.files.any (fun e => decide (e.1 = c))

/-- `sftp.lstat(path)`: succeeds iff the path names a directory or a file. -/
def sftpLstat (fs : RemoteFs) (p : List Char) : Bool :=
  hasEntry fs (parsePath p)

/-- `sftp.mkdir(path)`: raises IOError when the path already exists, names
the root, or its parent directory is missing; otherwise records the new
directory. -/
def sftpMkdir (fs : RemoteFs) (p : List Char) : Except Unit RemoteFs :=
  let c := parsePath p
  if hasEntry fs c then .error ()
  else if c = [] then .error ()
  else if c.dropLast ∈ fs.dirs then .ok { fs with dirs := c :: fs.dirs }
  else .error ()

/-! ### `SSHClientManager.mkdir` (sshclientmanager.py lines 74-88) -/

/-- The recovery walk of `mkdir`: for each index `pp` of
`range(1, len(pathdirs))`, rebuild `os.path.join('/', *pathdirs[:pp+1])`,
probe it with `lstat`, and create it when the probe raises. -/
def mkdirWalk (pathdirs : List (List Char)) : RemoteFs → List Nat → Except Unit RemoteFs
  | fs, [] => .ok fs
  | fs, pp :: rest =>
    let currentpath := osJoinList (pathdirs.take (pp + 1))
    if sftpLstat fs currentpath then mkdirWalk pathdirs fs rest
    else
      match sftpMkdir fs currentpath with
      | .ok fs2 => mkdirWalk pathdirs fs2 rest
      | .error e => .error e

/-- `SSHClientManager.mkdir(path, recursive=True)`: attempt the direct
`sftp.mkdir`; on IOError, if `recursive`, split the path on the separator
and walk every ancestor prefix, else re-raise.  Returns the path. -/
def mkdirMgr (fs : RemoteFs) (path : List Char) (recursive : Bool) :
    Except Unit (RemoteFs × List Char) :=
  match sftpMkdir fs path with
  | .ok fs2 => .ok (fs2, path)
  | .error _ =>
    if recursive then
      let pathdirs := pySplit path
      match mkdirWalk pathdirs fs (List.range' 1 (pathdirs.length - 1)) with
      | .ok fs2 => .ok (fs2, path)
      | .error e => .error e
    else .error ()

/-- Well-formedness of the directory table: the root exists and every
directory's parent exists. -/
def dirClosed (fs : RemoteFs) : Prop :=
  [] ∈ fs.dirs ∧ ∀ d ∈ fs.dirs, d.dropLast ∈ fs.dirs

/-! ### `SSHClientManager.upload` (sshclientmanager.py lines 90-142) -/

/-- Python `os.path.split(p)`: split off the part after the last slash and
strip trailing slashes from the head unless it is all slashes. -/
def pyOsSplit (p : List Char) : List Char × List Char :=
  let r := p.reverse
  let tailr := r.takeWhile (fun c => c ≠ '/')
  let headr := r.drop tailr.length
  let headr2 := if headr.all (fun c => c = '/') then headr
    else headr.dropWhile (fun c => c = '/')
  (headr2.reverse, tailr.reverse)

/-- Python `os.path.splitext(p)`: split at the last dot of the final path
component, unless that component consists only of leading dots. -/
def pySplitExt (p : List Char) : List Char × List Char :=
  let r := p.reverse
  let rafterdot := r.takeWhile (fun c => c ≠ '.')
  if rafterdot.length = r.length then (p, [])
  else if '/' ∈ rafterdot then (p, [])
  else
    let base := (r.drop (rafterdot.length + 1)).takeWhile (fun c => c ≠ '/')
    if base.all (fun c => c = '.') then (p, [])
    else
      let dotpos := p.length - 1 - rafterdot.length
      (p.take dotpos, p.drop dotpos)

/-- The string `"{}_{}{}".format(filenamePre, counter, filenameExt)` used to
build collision-avoiding destination names. -/
def fmtUnderscore (pre : List Char) (counter : Nat) (ext : List Char) : List Char :=
  pre ++ '_' :: ((Nat.repr counter).toList ++ ext)

/-- The family of probe names: the original destination, then
`pre_1 ext`, `pre_2 ext`, ... -/
def candName (destpath pre ext : List Char) : Nat → List Char
  | 0 => destpath
  | k + 1 => fmtUnderscore pre (k + 1) ext

/-- The `while True` probe loop of `upload` (fuel-bounded): `lstat` the
candidate; on success break when overwriting, else bump the counter and
retry with the suffixed name; on `lstat` failure use the candidate. -/
def resolveDest (fs : RemoteFs) (overwrite : Bool) (pre ext : List Char) :
    List Char → Nat → Nat → List Char
  | destpath, _, 0 => destpath
  | destpath, counter, fuel + 1 =>
    if sftpLstat fs destpath then
      if overwrite then destpath
      else resolveDest fs overwrite pre ext
        (fmtUnderscore pre (counter + 1) ext) (counter + 1) fuel
    else destpath

/-- `sftp.put`/`sftp.putfo`: raises IOError when the destination names an
existing directory, the root, or a path whose parent directory is missing;
otherwise (over)writes the file content at that key. -/
def sftpPut (fs : RemoteFs) (data : List Nat) (p : List Char) : Except Unit RemoteFs :=
  let c := parsePath p
  if c ∈ fs.dirs then .error ()
  else if c = [] then .error ()
  else if c.dropLast ∈ fs.dirs then
    .ok { fs with files := (c, data) :: fs.files.filter (fun e => decide (e.1 ≠ c)) }
  else .error ()

/-- The `sourcefile` argument of `upload`: either an object with a `file`
attribute (uploaded via `putfo`) or a raw local path (uploaded via `put`);
either way `data` is the byte content that ends up on the remote side. -/
inductive Src where
  | fileObj (name : List Char) (data : List Nat)
  | rawPath (name : List Char) (data : List Nat)
deriving DecidableEq

/-- The `.name` of the source (for a raw path, the path string itself). -/
def Src.name : Src → List Char
  | .fileObj n _ => n
  | .rawPath n _ => n

/-- The byte content delivered to the remote side. -/
def Src.data : Src → List Nat
  | .fileObj _ d => d
  | .rawPath _ d => d

/-- `SSHClientManager.upload(sourcefile, path, destname, overwrite)`:
resolve the destination name (explicit or from the source name), resolve
the destination directory (current path, or `basepath/path`), ensure it
exists via `mkdir`, run the collision probe loop, then transfer; transfer
success yields `True`, an IOError during transfer is logged and yields
`False`; `mkdir` errors propagate. -/
def upload (fs : RemoteFs) (sourcefile : Src) (path? destname? : Option (List Char))
    (overwrite : Bool) (basepath currentpath : List Char) (fuel : Nat) :
    Except Unit (Bool × RemoteFs) :=
  let filename := sourcefile.name
  let destname := match destname? with
    | some d => if d = [] then (pyOsSplit filename).2 else d
    | none => (pyOsSplit filename).2
  let path := match path? with
    | some q => if q = [] then currentpath else joinOne basepath q
    | none => currentpath
  match mkdirMgr fs path true with
  | .error e => .error e
  | .ok (fs1, _) =>
    let destpath := joinOne path destname
    let fe := pySplitExt destpath
    let finalDest := resolveDest fs1 overwrite fe.1 fe.2 destpath 0 fuel
    match sftpPut fs1 sourcefile.data finalDest with
    | .ok fs2 => .ok (true, fs2)
    | .error _ => .ok (false, fs1)

/-- Content lookup on the remote files table. -/
def findData (fs : RemoteFs) (c : List (List Char)) : Option (List Nat) :=
  (fs.files.find? (fun e => decide (e.1 = c))).map (fun e => e.2)

/-! ### `MultipleSSHStorages._put_file` (storage.py lines 373-391) -/

/-- Whether a fallible call returned without raising. -/
def isOkB {α : Type} : Except Unit α → Bool
  | .ok _ => true
  | .error _ => false

/-- Extract the result of a non-throwing call (the default is irrelevant
when `isOkB` holds). -/
def exceptGetD {α : Type} (e : Except Unit α) (d : α) : α :=
  match e with
  | .ok a => a
  | .error _ => d

/-- The per-host upload made by the coordinator's `_put_file`: split `name`
into directory part and file name with `os.path.split`, pass the directory
only when nonempty, and call `upload` with the default `overwrite=True`.
Coordinator-created managers share the configured base path and their
current path equals it. -/
def coordUpload (name : List Char) (content : Src) (basepath : List Char) (fuel : Nat)
    (fs : RemoteFs) : Except Unit (Bool × RemoteFs) :=
  let pd := pyOsSplit name
  upload fs content (if pd.1 = [] then none else some pd.1) (some pd.2) true
    basepath basepath fuel

/-- `MultipleSSHStorages._put_file`: loop over every host's manager calling
`upload`; a `False` result is only logged (the raise is commented out) and
the loop continues with the next host; an exception aborts the loop. -/
def multiPutFile (name : List Char) (content : Src) (basepath : List Char)
    (fuel : Nat) : List RemoteFs → Except Unit (List (Bool × RemoteFs))
  | [] => .ok []
  | fs :: rest =>
    match coordUpload name content basepath fuel fs with
    | .error e => .error e
    | .ok r =>
      match multiPutFile name content basepath fuel rest with
      | .error e => .error e
      | .ok rs => .ok (r :: rs)

/-! ### `MultipleSSHStorages.exists` (storage.py lines 393-403) -/

/-- Outcome of one host's `manager.sftp.stat(remote_path)`: success, an
IOError (path absent or an I/O-level failure), or a non-IOError exception
such as the AttributeError raised when the host's manager is `None` or
holds no SFTP handle. -/
inductive StatOutcome where
  | ok
  | ioErr
  | otherErr
deriving DecidableEq

/-- `MultipleSSHStorages.exists`: inside a single try/except-IOError, stat
the path on every host's manager in turn, then return `True`; an IOError
from any host yields `False`; any other exception propagates out. -/
def multiExists : List StatOutcome → Except Unit Bool
  | [] => .ok true
  | .ok :: rest => multiExists rest
  | .ioErr :: _ => .ok false
  | .otherErr :: _ => .error ()

/-- The first outcome that is not a success: where the stat loop stops. -/
def firstNonOk (outs : List StatOutcome) : Option StatOutcome :=
  outs.find? (fun o => decide (o ≠ .ok))

/-! ### `SSHClientManager` state (sshclientmanager.py lines 17-68, 162-177) -/

/-- The mutable state of an `SSHClientManager`.  A handle field is `none`
when the Python attribute does not exist at all (`hasattr` is false) and
`some none` when the attribute is set to Python `None`; `some (some ())`
is a live handle object. -/
structure MgrState where
  hostname : Option (List Char)
  username : Option (List Char)
  password : Option (List Char)
  port : Nat
  rsa_key : Option (List Char)
  basepath : Option (List Char)
  currentpath : Option (List Char)
  sshAttr : Option (Option Unit)
  sftpAttr : Option (Option Unit)
deriving DecidableEq

/-- `SSHClientManager.__init__`: store the configuration, let `currentpath`
start at `basepath`, and assign `None` to both `_ssh` and `_sftp` (so both
attributes exist from construction on). -/
def initMgr (hostname : List Char) (username password rsa_key : Option (List Char))
    (port : Nat) (basepath : Option (List Char)) : MgrState :=
  ⟨some hostname, username, password, port, rsa_key, basepath, basepath,
    some none, some none⟩

/-- `connect`: attempt session authentication (the network outcome is the
`net` parameter); on success open the SFTP sub-session and return `True`;
an `SSHException` is caught and yields `False` with no SFTP handle. -/
def connect (net : Bool) (m : MgrState) : Bool × MgrState :=
  if net then (true, { m with sftpAttr := some (some ()) }) else (false, m)

/-- `setup`: create a fresh `SSHClient` (the `_ssh` attribute becomes a
live object), install the auto-accept host-key policy, build the keyword
arguments and `connect`. -/
def setup (net : Bool) (m : MgrState) : Bool × MgrState :=
  connect net { m with sshAttr := some (some ()) }

/-- The lazy `sftp` property (lines 60-65): `if not hasattr(self, '_sftp'):
self.setup()`, then return `self._sftp`; if the attribute is still absent
after that, the read raises AttributeError. -/
def sftpProp (net : Bool) (m : MgrState) : Except Unit (Option Unit × MgrState) :=
  let m1 := if m.sftpAttr = none then (setup net m).2 else m
  match m1.sftpAttr with
  | none => .error ()
  | some h => .ok (h, m1)

/-- `SSHClientManager.close_connection` (lines 162-177): inside a bare
try/except, reset every config field to its unset default, then close the
SFTP and SSH handles and clear them, returning `True`; closing a `None`
handle raises AttributeError, which is swallowed into a `False` return,
leaving the state as it stood at the point of the raise. -/
def close_connection (m : MgrState) : Bool × MgrState :=
  let m1 : MgrState := ⟨none, none, none, 22, none, none, none, m.sshAttr, m.sftpAttr⟩
  match m1.sftpAttr with
  | some (some _) =>
    match m1.sshAttr with
    | some (some _) => (true, { m1 with sftpAttr := some none, sshAttr := some none })
    | _ => (false, m1)
  | _ => (false, m1)

/-- The per-host `manager.sftp.stat(remote_path)` step of the coordinator's
`exists`: a `None` manager raises AttributeError (`otherErr`); a manager
whose `sftp` access yields no handle object likewise; with a live handle
the stat succeeds iff the path is present there and raises IOError
otherwise. -/
def managerSftpStat (net : Bool) (m : Option MgrState) (present : Bool) : StatOutcome :=
  match m with
  | none => .otherErr
  | some mgr =>
    match sftpProp net mgr with
    | .error _ => .otherErr
    | .ok (none, _) => .otherErr
    | .ok (some _, _) => if present then .ok else .ioErr

/-! ### `SSHStorage._decode_location` (storage.py lines 58-139) -/

/-- The `SSH_STORAGE_LOCATION` settings dictionary.  A string-valued field
holds `[]` exactly when `location.get(KEY, '') == ''` (key missing or
empty); the list-valued `HOSTNAMES` key is `none` when missing. -/
structure Location where
  hostname : List Char
  username : List Char
  basepath : List Char
  password : List Char
  rsa_key : List Char
  port : List Char
  protocol : List Char
  static_proxy_protocol : List Char
  static_proxy_hostname : List Char
  static_proxy_port : List Char
  hostnames : Option (List (List Char))
deriving DecidableEq

/-- The decoded `config` dictionary built by `_decode_location`; the
`location` entry is only ever installed later by `_add_to_basepath`. -/
structure SSHConfig where
  hostname : List Char
  username : List Char
  basepath : List Char
  protocol : List Char
  password : Option (List Char)
  rsa_key : Option (List Char)
  port : Nat
  static_proxy_protocol : List Char
  static_proxy_hostname : List Char
  static_proxy_port : List Char
  hostnames : List (List Char)
  location : Option (List Char)
deriving DecidableEq

/-- The distinct `ImproperlyConfigured` errors `_decode_location` raises. -/
inductive ConfigError where
  | missingHostname
  | missingUsername
  | missingBasepath
  | missingCredential
  | rsaKeyFileNotFound
deriving DecidableEq

/-- Python `str.lower()` (per character). -/
def pyLower (p : List Char) : List Char := p.map Char.toLower

/-- Python `int(str)` for plain decimal strings; `none` is ValueError. -/
def parsePyInt (p : List Char) : Option Nat :=
  if p ≠ [] ∧ p.all Char.isDigit then
    some (p.foldl (fun acc c => acc * 10 + (c.toNat - 48)) 0)
  else none

/-- `SSHStorage._decode_location`: validate the mandatory keys in order,
then decode the optional ones; a password, when given, is stored for
authentication and the key file is dropped; a key file used as the
credential must exist on the local file system (`fileExists`). -/
def decodeLocation (fileExists : List Char → Bool) (loc : Location) :
    Except ConfigError SSHConfig :=
  if loc.hostname = [] then .error .missingHostname
  else if loc.username = [] then .error .missingUsername
  else if loc.basepath = [] then .error .missingBasepath
  else if loc.password = [] ∧ loc.rsa_key = [] then .error .missingCredential
  else
    let protocol := if loc.protocol = [] ∨ (pyLower loc.protocol ≠ s "http://" ∧
        pyLower loc.protocol ≠ s "https://") then s "http://" else pyLower loc.protocol
    if loc.password = [] ∧ fileExists loc.rsa_key = false then
      .error .rsaKeyFileNotFound
    else
      let password : Option (List Char) :=
        if loc.password = [] then none else some loc.password
      let rsa_key : Option (List Char) :=
        if loc.password = [] then some loc.rsa_key else none
      let port := if loc.port = [] then 22 else
        match parsePyInt loc.port with
        | some n => n
        | none => 22
      let spp := if loc.static_proxy_protocol = [] ∨
          (pyLower loc.static_proxy_protocol ≠ s "http://" ∧
            pyLower loc.static_proxy_protocol ≠ s "https://")
        then protocol else loc.static_proxy_protocol
      let sph := if loc.static_proxy_hostname = [] then loc.hostname
        else loc.static_proxy_hostname
      let sport := if loc.static_proxy_port = [] then s "80"
        else match parsePyInt loc.static_proxy_port with
          | some _ => loc.static_proxy_port
          | none => s "80"
      .ok ⟨loc.hostname, loc.username, loc.basepath, protocol, password, rsa_key,
        port, spp, sph, sport, [], none⟩

/-- `MultipleSSHStorages._decode_location`: require `HOSTNAMES` (same error
message as a missing hostname), force `HOSTNAME` to `'localhost'`, delegate
to the base decoding, then record the host list. -/
def multiDecodeLocation (fileExists : List Char → Bool) (loc : Location) :
    Except ConfigError SSHConfig :=
  match loc.hostnames with
  | none => .error .missingHostname
  | some hosts =>
    match decodeLocation fileExists { loc with hostname := s "localhost" } with
    | .error e => .error e
    | .ok cfg => .ok { cfg with hostnames := hosts }

/-- `SSHStorage._add_to_basepath`: install the `'location'` entry and
extend the base path by it. -/
def addToBasepath (cfg : SSHConfig) (location : List Char) : SSHConfig :=
  { cfg with location := some location,
             basepath := joinOne cfg.basepath location }

/-- Python `str.replace('\\', '/')`. -/
def pyReplaceBackslash (p : List Char) : List Char :=
  p.map (fun c => if c = '\\' then '/' else c)

/-- `SSHStorage.url(name)` (storage.py lines 300-312): build the proxy host
(appending the port unless it is the string `'80'`), then join protocol,
host, `config['location']` and the name, normalizing backslashes; reading
the missing `'location'` key raises KeyError, the error case here. -/
def urlFor (cfg : SSHConfig) (name : List Char) : Except Unit (List Char) :=
  let hostname_aux := if cfg.static_proxy_port ≠ s "80" then
      cfg.static_proxy_hostname ++ ':' :: cfg.static_proxy_port
    else cfg.static_proxy_hostname
  match cfg.location with
  | none => .error ()
  | some loc =>
    .ok (pyReplaceBackslash
      (joinOne (joinOne (joinOne cfg.static_proxy_protocol hostname_aux) loc) name))

instance (c : List Char) : Decidable (goodComp c) := by
  unfold goodComp
  infer_instance

instance (fs : RemoteFs) : Decidable (dirClosed fs) := by
  unfold dirClosed
  infer_instance

theorem pySplit_ne_nil (l : List Char) : pySplit l ≠ [] := by
  cases l with
  | nil => simp [pySplit]
  | cons c rest =>
    simp only [pySplit]
    split
    · simp
    · split <;> simp_all

/-- Splitting after prepending a slash-free chunk extends the first piece. -/
theorem pySplit_append_slashfree (a : List Char) (ha : '/' ∉ a) (y : List Char) :
    pySplit (a ++ y) = (a ++ (pySplit y).headI) :: (pySplit y).tail := by
  induction a with
  | nil =>
    simp only [List.nil_append]
    cases h : pySplit y with
    | nil => exact absurd h (pySplit_ne_nil y)
    | cons hd tl => simp [List.headI, h]
  | cons c rest ih =>
    have hc : c ≠ '/' := by intro hc; exact ha (hc ▸ List.mem_cons_self c rest)
    have hrest : '/' ∉ rest := fun hm => ha (List.mem_cons_of_mem c hm)
    simp only [List.cons_append, pySplit, List.append_eq]
    rw [ih hrest, if_neg hc]

/-- Splitting a slash-free chunk yields just that chunk. -/
theorem pySplit_slashfree (a : List Char) (ha : '/' ∉ a) : pySplit a = [a] := by
  have h := pySplit_append_slashfree a ha []
  simpa [pySplit, List.headI] using h

/-- Splitting a canonical absolute path recovers an empty head piece followed
by the components. -/
theorem pySplit_glue (cs : List (List Char)) (h : ∀ c ∈ cs, '/' ∉ c) :
    pySplit (glue cs) = [] :: cs := by
  induction cs with
  | nil => simp [glue, pySplit]
  | cons c rest ih =>
    have hc : '/' ∉ c := h c (List.mem_cons_self c rest)
    have hrest : ∀ x ∈ rest, '/' ∉ x := fun x hx => h x (List.mem_cons_of_mem c hx)
    have hg : glue (c :: rest) = '/' :: (c ++ glue rest) := by
      simp [glue]
    rw [hg]
    show pySplit ('/' :: (c ++ glue rest)) = [] :: c :: rest
    have : pySplit ('/' :: (c ++ glue rest)) = [] :: pySplit (c ++ glue rest) := by
      simp [pySplit]
    rw [this, pySplit_append_slashfree c hc (glue rest), ih hrest]
    simp [List.headI]

/-- Parsing a canonical absolute path of good components recovers them. -/
theorem parsePath_glue (cs : List (List Char)) (h : ∀ c ∈ cs, goodComp c) :
    parsePath (glue cs) = cs := by
  rw [parsePath, pySplit_glue cs (fun c hc => (h c hc).2)]
  simp only [List.filter_cons]
  have : (([] : List Char) ≠ []) = False := by simp
  simp only [decide_eq_true_eq]
  rw [if_neg (by simp)]
  exact List.filter_eq_self.mpr (fun c hc => by
    simpa using (h c hc).1)

/-- A canonical path over good components never ends in a slash. -/
theorem glue_getLast_ne_slash (cs : List (List Char)) (h : ∀ c ∈ cs, goodComp c)
    (hne : cs ≠ []) : (glue cs).getLast? ≠ some '/' := by
  induction cs with
  | nil => exact absurd rfl hne
  | cons c rest ih =>
    have hc : goodComp c := h c (List.mem_cons_self c rest)
    have hrest : ∀ x ∈ rest, goodComp x := fun x hx => h x (List.mem_cons_of_mem c hx)
    cases rest with
    | nil =>
      have hg : glue [c] = '/' :: c := by simp [glue]
      rw [hg]
      obtain ⟨hcne, hcsl⟩ := hc
      have : ('/' :: c).getLast? = c.getLast? := by
        cases c with
        | nil => exact absurd rfl hcne
        | cons d ds => exact List.getLast?_cons_cons
      rw [this, List.getLast?_eq_getLast_of_ne_nil hcne]
      intro heq
      exact hcsl (by
        have : c.getLast hcne = '/' := by simpa using heq
        exact this ▸ List.getLast_mem hcne)
    | cons c2 rest2 =>
      have hg : glue (c :: c2 :: rest2) = ('/' :: c) ++ glue (c2 :: rest2) := by
        simp [glue]
      rw [hg, List.getLast?_append_of_ne_nil _ (by
        have : glue (c2 :: rest2) = '/' :: (c2 ++ glue rest2) := by simp [glue]
        simp [this])]
      exact ih hrest (by simp)

/-- `os.path.join` extends a canonical path by one good component. -/
theorem joinOne_glue (acc : List (List Char)) (c : List Char)
    (hacc : ∀ x ∈ acc, goodComp x) (haccne : acc ≠ []) (hc : goodComp c) :
    joinOne (glue acc) c = glue (acc ++ [c]) := by
  obtain ⟨hcne, hcsl⟩ := hc
  have hhead : c.head? ≠ some '/' := by
    cases c with
    | nil => exact absurd rfl hcne
    | cons d ds =>
      have : d ≠ '/' := fun hd => hcsl (hd ▸ List.mem_cons_self d ds)
      simpa using this
  have hgne : glue acc ≠ [] := by
    cases acc with
    | nil => exact absurd rfl haccne
    | cons a rest => simp [glue]
  rw [joinOne, if_neg hhead, if_neg (by
    push_neg
    exact ⟨hgne, glue_getLast_ne_slash acc hacc haccne⟩)]
  simp [glue]

/-- Folding `os.path.join` over good components appends them to a canonical
path. -/
theorem foldl_joinOne_glue (rest : List (List Char)) :
    ∀ acc : List (List Char), (∀ x ∈ acc, goodComp x) → acc ≠ [] →
    (∀ x ∈ rest, goodComp x) →
    List.foldl joinOne (glue acc) rest = glue (acc ++ rest) := by
  induction rest with
  | nil => intro acc _ _ _; simp
  | cons c rest2 ih =>
    intro acc hacc haccne hrest
    have hc : goodComp c := hrest c (List.mem_cons_self c rest2)
    have hrest2 : ∀ x ∈ rest2, goodComp x :=
      fun x hx => hrest x (List.mem_cons_of_mem c hx)
    have hstep : List.foldl joinOne (glue acc) (c :: rest2) =
        List.foldl joinOne (glue (acc ++ [c])) rest2 := by
      rw [List.foldl_cons, joinOne_glue acc c hacc haccne hc]
    rw [hstep, ih (acc ++ [c])
      (fun x hx => by
        rcases List.mem_append.mp hx with h1 | h1
        · exact hacc x h1
        · simpa using (List.mem_singleton.mp h1) ▸ hc)
      (by simp) hrest2]
    simp

/-- `os.path.join('/', '', c1, ..., ck)` (the path the recursive `mkdir`
walk rebuilds) is the canonical absolute path of the components. -/
theorem osJoinList_canonical (cs : List (List Char)) (h : ∀ x ∈ cs, goodComp x)
    (hne : cs ≠ []) : osJoinList ([] :: cs) = glue cs := by
  cases cs with
  | nil => exact absurd rfl hne
  | cons c rest =>
    have hc : goodComp c := h c (List.mem_cons_self c rest)
    have hrest : ∀ x ∈ rest, goodComp x := fun x hx => h x (List.mem_cons_of_mem c hx)
    have h1 : osJoinList ([] :: c :: rest) =
        List.foldl joinOne (joinOne ['/'] c) rest := by
      have : joinOne ['/'] [] = ['/'] := by simp [joinOne]
      simp [osJoinList, this]
    have h2 : joinOne ['/'] c = glue [c] := by
      obtain ⟨hcne, hcsl⟩ := hc
      have hhead : c.head? ≠ some '/' := by
        cases c with
        | nil => exact absurd rfl hcne
        | cons d ds =>
          have : d ≠ '/' := fun hd => hcsl (hd ▸ List.mem_cons_self d ds)
          simpa using this
      rw [joinOne, if_neg hhead, if_pos (by simp)]
      simp [glue]
    rw [h1, h2, foldl_joinOne_glue rest [c]
      (fun x hx => by simpa using (List.mem_singleton.mp hx) ▸ hc)
      (by simp) hrest]
    simp

theorem sftpMkdir_ok_elim {fs : RemoteFs} {p : List Char} {fs' : RemoteFs}
    (h : sftpMkdir fs p = .ok fs') :
    hasEntry fs (parsePath p) = false ∧ parsePath p ≠ [] ∧
      (parsePath p).dropLast ∈ fs.dirs ∧
      fs' = { dirs := parsePath p :: fs.dirs, files := fs.files } := by
  unfold sftpMkdir at h
  dsimp only at h
  split at h
  · exact absurd h (by simp)
  next hent =>
    split at h
    · exact absurd h (by simp)
    next hnil =>
      split at h
      next hpar =>
        refine ⟨by simpa using hent, hnil, hpar, ?_⟩
        have := h
        injection this with h2
        exact h2.symm
      · exact absurd h (by simp)

theorem sftpMkdir_err_of_hasEntry {fs : RemoteFs} {p : List Char}
    (h : hasEntry fs (parsePath p) = true) : sftpMkdir fs p = .error () := by
  unfold sftpMkdir
  rw [if_pos h]

/-- In a well-formed directory table, every prefix of an existing directory
exists. -/
theorem dirClosed_take (fs : RemoteFs) (hcl : dirClosed fs) :
    ∀ (m : Nat) (d : List (List Char)), d ∈ fs.dirs → ∀ k, d.length - k = m →
      d.take k ∈ fs.dirs := by
  intro m
  induction m with
  | zero =>
    intro d hd k hk
    have : d.length ≤ k := Nat.le_of_sub_eq_zero hk
    rw [List.take_of_length_le this]
    exact hd
  | succ m ih =>
    intro d hd k hk
    have hklt : k < d.length := by omega
    have h1 : d.take (k + 1) ∈ fs.dirs := ih d hd (k + 1) (by omega)
    have h2 : (d.take (k + 1)).dropLast = d.take k := by
      rw [List.dropLast_eq_take, List.length_take]
      have : min (k + 1) d.length = k + 1 := by omega
      rw [this, List.take_take]
      congr 1
      omega
    have := hcl.2 _ h1
    rwa [h2] at this

theorem sftpMkdir_ok_intro {fs : RemoteFs} {p : List Char}
    (h1 : hasEntry fs (parsePath p) = false) (h2 : parsePath p ≠ [])
    (h3 : (parsePath p).dropLast ∈ fs.dirs) :
    sftpMkdir fs p = .ok { dirs := parsePath p :: fs.dirs, files := fs.files } := by
  unfold sftpMkdir
  dsimp only
  rw [if_neg (by simp [h1]), if_neg h2, if_pos h3]

theorem take_dropLast_take {α : Type} (l : List α) (k : Nat) (hk : k ≤ l.length) :
    (l.take k).dropLast = l.take (k - 1) := by
  rw [List.dropLast_eq_take, List.length_take]
  have hmin : min k l.length = k := by omega
  rw [hmin, List.take_take]
  congr 1
  omega

theorem take_glue_canonical (comps : List (List Char)) (hg : ∀ x ∈ comps, goodComp x)
    (start : Nat) (h1 : 1 ≤ start) (h2 : start ≤ comps.length) :
    osJoinList (([] :: comps).take (start + 1)) = glue (comps.take start) ∧
      parsePath (glue (comps.take start)) = comps.take start := by
  have hgood : ∀ x ∈ comps.take start, goodComp x :=
    fun x hx => hg x (List.take_subset start comps hx)
  have hlen : (comps.take start).length = start := by
    rw [List.length_take]; omega
  have hnen : comps.take start ≠ [] := by
    intro hnil
    rw [hnil] at hlen
    simp at hlen
    omega
  constructor
  · rw [List.take_succ_cons]
    exact osJoinList_canonical (comps.take start) hgood hnen
  · exact parsePath_glue (comps.take start) hgood

theorem mkdirWalk_nil (pathdirs : List (List Char)) (fs : RemoteFs) :
    mkdirWalk pathdirs fs [] = .ok fs := rfl

theorem mkdirWalk_cons (pathdirs : List (List Char)) (fs : RemoteFs) (pp : Nat)
    (rest : List Nat) :
    mkdirWalk pathdirs fs (pp :: rest) =
      (if sftpLstat fs (osJoinList (pathdirs.take (pp + 1))) then
        mkdirWalk pathdirs fs rest
      else
        match sftpMkdir fs (osJoinList (pathdirs.take (pp + 1))) with
        | .ok fs2 => mkdirWalk pathdirs fs2 rest
        | .error e => .error e) := rfl

/-- The recovery walk of `mkdir` succeeds on a well-rooted state, keeps the
files untouched, only adds directories, and ends with every remaining
ancestor prefix present. -/
theorem mkdirWalk_ok (comps : List (List Char)) (hg : ∀ x ∈ comps, goodComp x) :
    ∀ (k start : Nat) (fs : RemoteFs), 1 ≤ start → start + k = comps.length + 1 →
      comps.take (start - 1) ∈ fs.dirs → [] ∈ fs.dirs →
      (∀ e ∈ fs.files, ∀ j, j ≤ comps.length → e.1 ≠ comps.take j) →
      ∃ fs2, mkdirWalk ([] :: comps) fs (List.range' start k) = .ok fs2 ∧
        fs2.files = fs.files ∧
        (∀ d ∈ fs.dirs, d ∈ fs2.dirs) ∧
        (∀ pp, start - 1 ≤ pp → pp ≤ comps.length → comps.take pp ∈ fs2.dirs) := by
  intro k
  induction k with
  | zero =>
    intro start fs hs1 hsum hprev hroot _
    refine ⟨fs, rfl, rfl, fun d hd => hd, ?_⟩
    intro pp hpp1 hpp2
    have : pp = start - 1 := by omega
    rw [this]
    exact hprev
  | succ k ih =>
    intro start fs hs1 hsum hprev hroot hnof
    have hsle : start ≤ comps.length := by omega
    obtain ⟨hjoin, hparse⟩ := take_glue_canonical comps hg start hs1 hsle
    have hrange : List.range' start (k + 1) = start :: List.range' (start + 1) k := rfl
    rw [hrange, mkdirWalk_cons, hjoin]
    simp only [sftpLstat, hparse]
    by_cases hent : hasEntry fs (comps.take start) = true
    · have hdir : comps.take start ∈ fs.dirs := by
        rw [hasEntry] at hent
        rcases Bool.or_eq_true_iff.mp hent with h1 | h1
        · exact of_decide_eq_true h1
        · obtain ⟨e, he, heq⟩ := List.any_eq_true.mp h1
          exact absurd (of_decide_eq_true heq) (hnof e he start hsle)
      obtain ⟨fs2, hwalk, hfiles, hdirs, hall⟩ := ih (start + 1) fs (by omega)
        (by omega) (by simpa using hdir) hroot hnof
      refine ⟨fs2, ?_, hfiles, hdirs, ?_⟩
      · rw [if_pos hent]
        exact hwalk
      · intro pp h1 h2
        by_cases hpp : start ≤ pp
        · exact hall pp (by omega) h2
        · have : pp = start - 1 := by omega
          rw [this]
          exact hdirs _ hprev
    · have hentf : hasEntry fs (comps.take start) = false := by simpa using hent
      have hlen : (comps.take start).length = start := by
        rw [List.length_take]; omega
      have hne2 : comps.take start ≠ [] := by
        intro hnil
        rw [hnil] at hlen
        simp at hlen
        omega
      have hdrop : (comps.take start).dropLast = comps.take (start - 1) :=
        take_dropLast_take comps start hsle
      have hmk : sftpMkdir fs (glue (comps.take start)) =
          .ok { dirs := comps.take start :: fs.dirs, files := fs.files } := by
        have h1 : hasEntry fs (parsePath (glue (comps.take start))) = false := by
          rw [hparse]; exact hentf
        have h2 : parsePath (glue (comps.take start)) ≠ [] := by
          rw [hparse]; exact hne2
        have h3 : (parsePath (glue (comps.take start))).dropLast ∈ fs.dirs := by
          rw [hparse, hdrop]; exact hprev
        have := sftpMkdir_ok_intro h1 h2 h3
        rwa [hparse] at this
      obtain ⟨fs2, hwalk, hfiles, hdirs, hall⟩ := ih (start + 1)
        { dirs := comps.take start :: fs.dirs, files := fs.files } (by omega) (by omega)
        (by simp)
        (List.mem_cons_of_mem _ hroot)
        (fun e he j hj => hnof e (by simpa using he) j hj)
      refine ⟨fs2, ?_, by simpa using hfiles,
        fun d hd => hdirs d (List.mem_cons_of_mem _ hd), ?_⟩
      · rw [if_neg (by simp [hentf]), hmk]
        exact hwalk
      · intro pp h1 h2
        by_cases hpp : start ≤ pp
        · exact hall pp (by omega) h2
        · have : pp = start - 1 := by omega
          rw [this]
          exact hdirs _ (List.mem_cons_of_mem _ hprev)

/-- When every ancestor prefix already exists, the recovery walk probes each
one and changes nothing. -/
theorem mkdirWalk_skip (comps : List (List Char)) (hg : ∀ x ∈ comps, goodComp x) :
    ∀ (k start : Nat) (fs : RemoteFs), 1 ≤ start → start + k ≤ comps.length + 1 →
      (∀ pp, 1 ≤ pp → pp ≤ comps.length → hasEntry fs (comps.take pp) = true) →
      mkdirWalk ([] :: comps) fs (List.range' start k) = .ok fs := by
  intro k
  induction k with
  | zero => intro start fs _ _ _; rfl
  | succ k ih =>
    intro start fs hs1 hsum hall
    have hsle : start ≤ comps.length := by omega
    obtain ⟨hjoin, hparse⟩ := take_glue_canonical comps hg start hs1 hsle
    have hrange : List.range' start (k + 1) = start :: List.range' (start + 1) k := rfl
    rw [hrange, mkdirWalk_cons, hjoin]
    simp only [sftpLstat, hparse]
    rw [if_pos (hall start hs1 hsle)]
    exact ih (start + 1) fs (by omega) (by omega) hall

theorem mkdirMgr_ok_unfold {fs : RemoteFs} {p : List Char} {fs2 : RemoteFs}
    (h : sftpMkdir fs p = .ok fs2) (r : Bool) :
    mkdirMgr fs p r = .ok (fs2, p) := by
  unfold mkdirMgr
  rw [h]

theorem mkdirMgr_err_unfold {fs : RemoteFs} {p : List Char}
    (h : sftpMkdir fs p = .error ()) (r : Bool) :
    mkdirMgr fs p r =
      (if r then
        match mkdirWalk (pySplit p) fs (List.range' 1 ((pySplit p).length - 1)) with
        | .ok fs2 => .ok (fs2, p)
        | .error e => .error e
      else .error ()) := by
  unfold mkdirMgr
  rw [h]

/-- Claim C7 (main theorem): on a well-formed remote state, creating a
nested canonical path succeeds, creating it again with `recursive=True`
succeeds without changing the remote state, and the repeated creation with
`recursive=False` propagates the directory-creation error. -/
theorem mkdir_recursive_idempotent (comps : List (List Char)) (fs : RemoteFs)
    (hne : comps ≠ []) (hg : ∀ x ∈ comps, goodComp x) (hcl : dirClosed fs)
    (hnof : ∀ e ∈ fs.files, ∀ j, j ≤ comps.length → e.1 ≠ comps.take j) :
    ∃ fs1, mkdirMgr fs (glue comps) true = .ok (fs1, glue comps) ∧
      mkdirMgr fs1 (glue comps) true = .ok (fs1, glue comps) ∧
      mkdirMgr fs1 (glue comps) false = .error () := by
  have hn : 1 ≤ comps.length := List.length_pos.mpr hne
  have hparse : parsePath (glue comps) = comps := parsePath_glue comps hg
  have hsplit : pySplit (glue comps) = [] :: comps :=
    pySplit_glue comps (fun c hc => (hg c hc).2)
  have hlen : (pySplit (glue comps)).length - 1 = comps.length := by
    rw [hsplit]
    simp
  have key : ∀ fs1 : RemoteFs, comps ∈ fs1.dirs →
      (∀ pp, 1 ≤ pp → pp ≤ comps.length → comps.take pp ∈ fs1.dirs) →
      mkdirMgr fs1 (glue comps) true = .ok (fs1, glue comps) ∧
      mkdirMgr fs1 (glue comps) false = .error () := by
    intro fs1 hfull hpref
    have herr : sftpMkdir fs1 (glue comps) = .error () :=
      sftpMkdir_err_of_hasEntry (by rw [hparse]; simp [hasEntry, hfull])
    have hwalk := mkdirWalk_skip comps hg comps.length 1 fs1 (by omega) (by omega)
      (fun pp h1 h2 => by simp [hasEntry, hpref pp h1 h2])
    constructor
    · rw [mkdirMgr_err_unfold herr true, if_pos rfl, hsplit]
      simp only [List.length_cons, Nat.add_sub_cancel]
      rw [hwalk]
    · rw [mkdirMgr_err_unfold herr false]
      simp
  cases hmk : sftpMkdir fs (glue comps) with
  | ok fs' =>
    obtain ⟨hentf, hne2, hpar, hfs'⟩ := sftpMkdir_ok_elim hmk
    rw [hparse] at hpar hfs'
    have hdl : comps.dropLast = comps.take (comps.length - 1) := List.dropLast_eq_take comps
    have hpref : ∀ pp, 1 ≤ pp → pp ≤ comps.length → comps.take pp ∈ fs'.dirs := by
      intro pp h1 h2
      rw [hfs']
      by_cases hpn : pp = comps.length
      · rw [hpn, List.take_of_length_le (le_refl _)]
        exact List.mem_cons_self _ _
      · have hlt : pp < comps.length := by omega
        have hin : (comps.take (comps.length - 1)).take pp ∈ fs.dirs :=
          dirClosed_take fs hcl _ _ (hdl ▸ hpar) pp rfl
        rw [List.take_take] at hin
        have hminpp : min pp (comps.length - 1) = pp := by omega
        rw [hminpp] at hin
        exact List.mem_cons_of_mem _ hin
    have hfull : comps ∈ fs'.dirs := by
      rw [hfs']
      exact List.mem_cons_self _ _
    obtain ⟨h2, h3⟩ := key fs' hfull hpref
    exact ⟨fs', mkdirMgr_ok_unfold hmk true, h2, h3⟩
  | error e =>
    cases e
    have hwo := mkdirWalk_ok comps hg comps.length 1 fs (by omega) (by omega)
      (by simpa using hcl.1) hcl.1 hnof
    obtain ⟨fs1, hwalk, hfiles, hdirs, hall⟩ := hwo
    have hfull : comps ∈ fs1.dirs := by
      have := hall comps.length (by omega) (le_refl _)
      rwa [List.take_of_length_le (le_refl _)] at this
    have hpref : ∀ pp, 1 ≤ pp → pp ≤ comps.length → comps.take pp ∈ fs1.dirs :=
      fun pp h1 h2 => hall pp (by omega) h2
    obtain ⟨h2, h3⟩ := key fs1 hfull hpref
    refine ⟨fs1, ?_, h2, h3⟩
    rw [mkdirMgr_err_unfold hmk true, if_pos rfl, hsplit]
    simp only [List.length_cons, Nat.add_sub_cancel]
    rw [hwalk]

theorem hasEntry_false_elim {fs : RemoteFs} {c : List (List Char)}
    (h : hasEntry fs c = false) :
    c ∉ fs.dirs ∧ ∀ e ∈ fs.files, e.1 ≠ c := by
  rw [hasEntry, Bool.or_eq_false_iff] at h
  obtain ⟨h1, h2⟩ := h
  refine ⟨of_decide_eq_false h1, ?_⟩
  intro e he
  have := List.any_eq_false.mp h2 e he
  simpa using this

theorem sftpPut_ok_intro {fs : RemoteFs} {data : List Nat} {p : List Char}
    (h1 : parsePath p ∉ fs.dirs) (h2 : parsePath p ≠ [])
    (h3 : (parsePath p).dropLast ∈ fs.dirs) :
    sftpPut fs data p = .ok ⟨fs.dirs,
      (parsePath p, data) ::
        fs.files.filter (fun e => decide (e.1 ≠ parsePath p))⟩ := by
  unfold sftpPut
  dsimp only
  rw [if_neg h1, if_neg h2, if_pos h3]

/-- With `overwrite=True`, the probe loop returns the destination unchanged. -/
theorem resolveDest_overwrite (fs : RemoteFs) (pre ext destpath : List Char)
    (counter fuel : Nat) (hfuel : 1 ≤ fuel) :
    resolveDest fs true pre ext destpath counter fuel = destpath := by
  cases fuel with
  | zero => omega
  | succ f =>
    show (if sftpLstat fs destpath then if true then destpath else _ else destpath) = destpath
    split <;> rfl

/-- With `overwrite=False`, the probe loop walks the suffixed name family
until the first absent candidate and returns it. -/
theorem resolveDest_counts (fs : RemoteFs) (pre ext destpath : List Char) (N : Nat)
    (hpres : ∀ k, k < N → sftpLstat fs (candName destpath pre ext k) = true)
    (habs : sftpLstat fs (candName destpath pre ext N) = false) :
    ∀ fuel j, j ≤ N → N - j < fuel →
      resolveDest fs false pre ext (candName destpath pre ext j) j fuel =
        candName destpath pre ext N := by
  intro fuel
  induction fuel with
  | zero => intro j h1 h2; omega
  | succ f ih =>
    intro j h1 h2
    by_cases hj : j = N
    · subst hj
      show (if sftpLstat fs (candName destpath pre ext j) then _ else _) = _
      rw [if_neg (by simp [habs])]
    · have hlt : j < N := by omega
      have hp := hpres j hlt
      show (if sftpLstat fs (candName destpath pre ext j) then
          if false then _ else resolveDest fs false pre ext
            (fmtUnderscore pre (j + 1) ext) (j + 1) f
        else _) = _
      rw [if_pos (by simp [hp])]
      have hcand : fmtUnderscore pre (j + 1) ext = candName destpath pre ext (j + 1) := rfl
      rw [if_neg (by simp), hcand]
      exact ih (j + 1) (by omega) (by omega)

/-- Claim C3 (main theorem): an `upload` with `overwrite=False` whose
resolved destination collides with `N` existing files `name.ext`,
`name_1.ext`, ..., `name_(N-1).ext` stores the content under `name_N.ext`
and leaves every existing file in place. -/
theorem upload_collision_suffix
    (fs fs1 : RemoteFs) (src : Src) (path? destname? : Option (List Char))
    (basepath currentpath : List Char) (N fuel : Nat)
    (pathR destR destpath pre ext : List Char)
    (hdest : destR = (match destname? with
      | some d => if d = [] then (pyOsSplit src.name).2 else d
      | none => (pyOsSplit src.name).2))
    (hpath : pathR = (match path? with
      | some q => if q = [] then currentpath else joinOne basepath q
      | none => currentpath))
    (hmk : mkdirMgr fs pathR true = .ok (fs1, pathR))
    (hdp : destpath = joinOne pathR destR)
    (hsx : pySplitExt destpath = (pre, ext))
    (hpres : ∀ k, k < N → sftpLstat fs1 (candName destpath pre ext k) = true)
    (habs : sftpLstat fs1 (candName destpath pre ext N) = false)
    (hkey : parsePath (candName destpath pre ext N) ≠ [])
    (hparent : (parsePath (candName destpath pre ext N)).dropLast ∈ fs1.dirs)
    (hfuel : N < fuel) :
    upload fs src path? destname? false basepath currentpath fuel =
      .ok (true, ⟨fs1.dirs,
        (parsePath (candName destpath pre ext N), src.data) :: fs1.files⟩) := by
  have habs2 : hasEntry fs1 (parsePath (candName destpath pre ext N)) = false := habs
  obtain ⟨hnd, hnf⟩ := hasEntry_false_elim habs2
  have hput := @sftpPut_ok_intro fs1 src.data
    (candName destpath pre ext N) hnd hkey hparent
  have hfilter : fs1.files.filter
      (fun e => decide (e.1 ≠ parsePath (candName destpath pre ext N))) = fs1.files :=
    List.filter_eq_self.mpr (fun e he => by simpa using hnf e he)
  rw [hfilter] at hput
  have hres : resolveDest fs1 false pre ext destpath 0 fuel =
      candName destpath pre ext N := by
    have := resolveDest_counts fs1 pre ext destpath N hpres habs fuel 0
      (Nat.zero_le N) (by omega)
    simpa [candName] using this
  subst hdest hpath hdp
  unfold upload
  dsimp only
  rw [hmk]
  dsimp only
  rw [hsx]
  dsimp only
  rw [hres, hput]

/-- Claim C4 (main theorem): an `upload` with `overwrite=True` always lands
at exactly the resolved directory joined with the resolved destination
name, and the lookup at that path afterwards yields the uploaded content,
replacing whatever was there. -/
theorem upload_overwrite_exact
    (fs fs1 : RemoteFs) (src : Src) (path? destname? : Option (List Char))
    (basepath currentpath : List Char) (fuel : Nat)
    (pathR destR destpath : List Char)
    (hdest : destR = (match destname? with
      | some d => if d = [] then (pyOsSplit src.name).2 else d
      | none => (pyOsSplit src.name).2))
    (hpath : pathR = (match path? with
      | some q => if q = [] then currentpath else joinOne basepath q
      | none => currentpath))
    (hmk : mkdirMgr fs pathR true = .ok (fs1, pathR))
    (hdp : destpath = joinOne pathR destR)
    (hnd : parsePath destpath ∉ fs1.dirs)
    (hkey : parsePath destpath ≠ [])
    (hparent : (parsePath destpath).dropLast ∈ fs1.dirs)
    (hfuel : 1 ≤ fuel) :
    upload fs src path? destname? true basepath currentpath fuel =
      .ok (true, ⟨fs1.dirs,
        (parsePath destpath, src.data) ::
          fs1.files.filter (fun e => decide (e.1 ≠ parsePath destpath))⟩) ∧
    findData ⟨fs1.dirs,
        (parsePath destpath, src.data) ::
          fs1.files.filter (fun e => decide (e.1 ≠ parsePath destpath))⟩
      (parsePath destpath) = some src.data := by
  have hput := @sftpPut_ok_intro fs1 src.data destpath
    hnd hkey hparent
  have hres := resolveDest_overwrite fs1 (pySplitExt destpath).1 (pySplitExt destpath).2
    destpath 0 fuel hfuel
  constructor
  · subst hdest hpath hdp
    unfold upload
    dsimp only
    rw [hmk]
    dsimp only
    rw [hres, hput]
  · simp [findData, List.find?]

/-- Claim C2 (main theorem): the coordinator's upload fan-out reaches every
host.  Whenever each per-host `upload` call returns (rather than raising),
the fan-out returns without raising and its outcome at every position is
exactly that host's own upload result computed from that host's state
alone: an earlier host's `False` neither aborts the loop nor rolls any
other host back. -/
theorem multiPutFile_fanout (name : List Char) (content : Src) (basepath : List Char)
    (fuel : Nat) (hosts : List RemoteFs)
    (h : ∀ fs ∈ hosts, isOkB (coordUpload name content basepath fuel fs) = true) :
    multiPutFile name content basepath fuel hosts =
      .ok (hosts.map (fun fs =>
        exceptGetD (coordUpload name content basepath fuel fs) (false, fs))) := by
  induction hosts with
  | nil => rfl
  | cons fs rest ih =>
    have hfs := h fs (List.mem_cons_self fs rest)
    have hrest : ∀ x ∈ rest, isOkB (coordUpload name content basepath fuel x) = true :=
      fun x hx => h x (List.mem_cons_of_mem fs hx)
    cases hc : coordUpload name content basepath fuel fs with
    | error e =>
      rw [hc] at hfs
      simp [isOkB] at hfs
    | ok r =>
      show (match coordUpload name content basepath fuel fs with
        | .error e => Except.error e
        | .ok r =>
          match multiPutFile name content basepath fuel rest with
          | .error e => Except.error e
          | .ok rs => Except.ok (r :: rs)) = _
      rw [hc, ih hrest]
      simp [exceptGetD, hc]

/-- Claim C1 (amended, main theorem): the coordinator's `exists` returns
`True` iff stat succeeds on every host; it returns `False` iff the first
failing host fails with an IOError; and it raises (rather than returning
`False`) iff the first failing host fails with a non-IOError exception. -/
theorem multiExists_characterization (outs : List StatOutcome) :
    (multiExists outs = .ok true ↔ ∀ o ∈ outs, o = .ok) ∧
    (multiExists outs = .ok false ↔ firstNonOk outs = some .ioErr) ∧
    (multiExists outs = .error () ↔ firstNonOk outs = some .otherErr) := by
  induction outs with
  | nil => simp [multiExists, firstNonOk]
  | cons o rest ih =>
    cases o with
    | ok =>
      have h1 : multiExists (.ok :: rest) = multiExists rest := rfl
      have h2 : firstNonOk (.ok :: rest) = firstNonOk rest := by
        simp [firstNonOk, List.find?]
      rw [h1, h2]
      refine ⟨?_, ih.2.1, ih.2.2⟩
      rw [ih.1]
      simp
    | ioErr =>
      have h1 : multiExists (.ioErr :: rest) = .ok false := rfl
      have h2 : firstNonOk (.ioErr :: rest) = some .ioErr := by
        simp [firstNonOk, List.find?]
      rw [h1, h2]
      refine ⟨?_, by simp, by simp⟩
      constructor
      · intro h; simp at h
      · intro h
        have := h .ioErr (List.mem_cons_self _ _)
        simp at this
    | otherErr =>
      have h1 : multiExists (.otherErr :: rest) = .error () := rfl
      have h2 : firstNonOk (.otherErr :: rest) = some .otherErr := by
        simp [firstNonOk, List.find?]
      rw [h1, h2]
      refine ⟨?_, by simp, by simp⟩
      constructor
      · intro h; simp at h
      · intro h
        have := h .otherErr (List.mem_cons_self _ _)
        simp at this

/-- Claim C8 (main theorem): a configuration missing the hostname, the
username, the basepath, or both credentials fails with the
`ConfigurationError` naming the first missing field; when both a password
and a key file are supplied, the password is kept for authentication and
the key file is dropped; when the key file is the credential in use, it
must exist on the local file system or decoding fails. -/
theorem decodeLocation_validation (fileExists : List Char → Bool) (loc : Location) :
    (loc.hostname = [] → decodeLocation fileExists loc = .error .missingHostname) ∧
    (loc.hostname ≠ [] → loc.username = [] →
      decodeLocation fileExists loc = .error .missingUsername) ∧
    (loc.hostname ≠ [] → loc.username ≠ [] → loc.basepath = [] →
      decodeLocation fileExists loc = .error .missingBasepath) ∧
    (loc.hostname ≠ [] → loc.username ≠ [] → loc.basepath ≠ [] →
      loc.password = [] → loc.rsa_key = [] →
      decodeLocation fileExists loc = .error .missingCredential) ∧
    (loc.hostname ≠ [] → loc.username ≠ [] → loc.basepath ≠ [] →
      loc.password ≠ [] →
      ∃ cfg, decodeLocation fileExists loc = .ok cfg ∧
        cfg.password = some loc.password ∧ cfg.rsa_key = none) ∧
    (loc.hostname ≠ [] → loc.username ≠ [] → loc.basepath ≠ [] →
      loc.password = [] → loc.rsa_key ≠ [] → fileExists loc.rsa_key = false →
      decodeLocation fileExists loc = .error .rsaKeyFileNotFound) := by
  refine ⟨?_, ?_, ?_, ?_, ?_, ?_⟩
  · intro h1
    unfold decodeLocation
    rw [if_pos h1]
  · intro h1 h2
    unfold decodeLocation
    rw [if_neg h1, if_pos h2]
  · intro h1 h2 h3
    unfold decodeLocation
    rw [if_neg h1, if_neg h2, if_pos h3]
  · intro h1 h2 h3 h4 h5
    unfold decodeLocation
    rw [if_neg h1, if_neg h2, if_neg h3, if_pos ⟨h4, h5⟩]
  · intro h1 h2 h3 h4
    unfold decodeLocation
    rw [if_neg h1, if_neg h2, if_neg h3,
      if_neg (by intro hc; exact h4 hc.1)]
    dsimp only
    rw [if_neg (by intro hc; exact h4 hc.1)]
    refine ⟨_, rfl, ?_, ?_⟩
    · dsimp only
      rw [if_neg h4]
    · dsimp only
      rw [if_neg h4]
  · intro h1 h2 h3 h4 h5 h6
    unfold decodeLocation
    rw [if_neg h1, if_neg h2, if_neg h3,
      if_neg (by intro hc; exact h5 hc.2)]
    dsimp only
    rw [if_pos ⟨h4, h6⟩]

/-- Claim C10 (main theorem): neither `_decode_location` variant ever
produces a `'location'` entry, so on a storage constructed directly as
`SSHStorage` or `MultipleSSHStorages` every `url` call raises KeyError;
running `_add_to_basepath` (as the static/media subclasses do) installs
`'location'`, after which `url` returns a URL. -/
theorem urlFor_some (c : SSHConfig) (v name : List Char) (hc : c.location = some v) :
    urlFor c name = .ok (pyReplaceBackslash (joinOne (joinOne (joinOne
      c.static_proxy_protocol (if c.static_proxy_port ≠ s "80" then
        c.static_proxy_hostname ++ ':' :: c.static_proxy_port
      else c.static_proxy_hostname)) v) name)) := by
  unfold urlFor
  dsimp only
  rw [hc]

theorem url_requires_add_to_basepath (fileExists : List Char → Bool) (loc : Location)
    (cfg cfg2 : SSHConfig) (name l : List Char) :
    (decodeLocation fileExists loc = .ok cfg →
      cfg.location = none ∧ urlFor cfg name = .error () ∧
      ∃ u, urlFor (addToBasepath cfg l) name = .ok u) ∧
    (multiDecodeLocation fileExists loc = .ok cfg2 →
      cfg2.location = none ∧ urlFor cfg2 name = .error ()) := by
  have hurl : ∀ c : SSHConfig, c.location = none → urlFor c name = .error () := by
    intro c hc
    unfold urlFor
    dsimp only
    rw [hc]
  have hdec : ∀ (l2 : Location) (c : SSHConfig),
      decodeLocation fileExists l2 = .ok c → c.location = none := by
    intro l2 c h
    unfold decodeLocation at h
    split at h
    · exact absurd h (by simp)
    split at h
    · exact absurd h (by simp)
    split at h
    · exact absurd h (by simp)
    split at h
    · exact absurd h (by simp)
    dsimp only at h
    split at h
    · exact absurd h (by simp)
    injection h with h2
    rw [← h2]
  constructor
  · intro h
    have hloc := hdec loc cfg h
    refine ⟨hloc, hurl cfg hloc, ?_⟩
    exact ⟨_, urlFor_some (addToBasepath cfg l) l name rfl⟩
  · intro h
    unfold multiDecodeLocation at h
    split at h
    · exact absurd h (by simp)
    next hosts heq =>
      cases hdecm : decodeLocation fileExists { loc with hostname := s "localhost" } with
      | error e =>
        rw [hdecm] at h
        exact absurd h (by simp)
      | ok cfg' =>
        rw [hdecm] at h
        injection h with h2
        have hloc' := hdec _ _ hdecm
        have hloc2 : cfg2.location = none := by
          rw [← h2]
          exact hloc'
        exact ⟨hloc2, hurl cfg2 hloc2⟩

/-- Claim C5 (code-bug evidence): `__init__` always assigns
`self._sftp = None`, so the guard `not hasattr(self, '_sftp')` in the lazy
`sftp` property is never true on a constructed manager.  On a fresh
manager, after a successful `close_connection`, and in general whenever the
attribute holds Python `None`, reading `sftp` performs no `setup()` (the
state is returned unchanged) and yields no handle — so the operation that
follows fails instead of reconnecting. -/
theorem sftpProp_never_reconnects (net : Bool) :
    (∀ (hostname : List Char) (username password rsa_key : Option (List Char))
        (port : Nat) (basepath : Option (List Char)),
      sftpProp net (initMgr hostname username password rsa_key port basepath) =
        .ok (none, initMgr hostname username password rsa_key port basepath)) ∧
    (∀ m : MgrState, (close_connection m).1 = true →
      sftpProp net ((close_connection m).2) = .ok (none, (close_connection m).2)) ∧
    (∀ m : MgrState, m.sftpAttr = some none → sftpProp net m = .ok (none, m)) := by
  have key : ∀ m : MgrState, m.sftpAttr = some none →
      sftpProp net m = .ok (none, m) := by
    intro m hm
    unfold sftpProp
    rw [if_neg (by simp [hm])]
    dsimp only
    rw [hm]
  refine ⟨fun hostname username password rsa_key port basepath => key _ rfl, ?_, key⟩
  intro m
  obtain ⟨h, u, pw, pt, rk, bp, cp, ssh, sftp⟩ := m
  rcases sftp with - | (- | -) <;> rcases ssh with - | (- | -) <;> intro htrue <;>
    first
    | exact key _ rfl
    | exact absurd htrue (by simp [close_connection])

/-- Claim C6 (main theorem): `close_connection` is a total function — the
bare `except` swallows every failure into a `False` return.  It returns
`True` exactly when both the SFTP and session handles are live objects; in
every case the resulting state has all config fields reset to their unset
defaults; and on a `True` return both handle attributes are cleared to
`None`. -/
theorem close_connection_spec (m : MgrState) :
    ((close_connection m).1 = true ↔
      m.sftpAttr = some (some ()) ∧ m.sshAttr = some (some ())) ∧
    ((close_connection m).2).hostname = none ∧
    ((close_connection m).2).username = none ∧
    ((close_connection m).2).password = none ∧
    ((close_connection m).2).port = 22 ∧
    ((close_connection m).2).rsa_key = none ∧
    ((close_connection m).2).basepath = none ∧
    ((close_connection m).2).currentpath = none ∧
    ((close_connection m).1 = true →
      ((close_connection m).2).sftpAttr = some none ∧
      ((close_connection m).2).sshAttr = some none) := by
  obtain ⟨h, u, pw, pt, rk, bp, cp, ssh, sftp⟩ := m
  rcases sftp with - | (- | -) <;> rcases ssh with - | (- | -) <;>
    simp [close_connection]

/-- Claim C9 (amended, main theorem): when `close_connection` returns
`False`, the config fields have already been reset to their unset defaults
(the resets precede the close attempts), so a `False` return does not mean
the state is unchanged; the handle fields are simply left with their
previous values on that path — the clearing assignments are never reached,
and a handle that was already `None` stays `None`. -/
theorem close_connection_false_state (m : MgrState) :
    (close_connection m).1 = false →
    ((close_connection m).2).hostname = none ∧
    ((close_connection m).2).username = none ∧
    ((close_connection m).2).password = none ∧
    ((close_connection m).2).port = 22 ∧
    ((close_connection m).2).rsa_key = none ∧
    ((close_connection m).2).basepath = none ∧
    ((close_connection m).2).currentpath = none ∧
    ((close_connection m).2).sftpAttr = m.sftpAttr ∧
    ((close_connection m).2).sshAttr = m.sshAttr := by
  obtain ⟨h, u, pw, pt, rk, bp, cp, ssh, sftp⟩ := m
  rcases sftp with - | (- | -) <;> rcases ssh with - | (- | -) <;> intro hfalse <;>
    simp [close_connection] at hfalse ⊢

/-- Claim C9 (counterexample): a manager whose connect failed holds a live
`_ssh` object but `_sftp = None`; `close_connection` then returns `False`
with the `_sftp` handle field equal to `None` — not left non-`None` as the
claim states. -/
theorem close_connection_false_sftp_none :
    (close_connection ⟨some (s "h1"), some (s "u"), some (s "p"), 22, none,
      some (s "/data"), some (s "/data"), some (some ()), some none⟩).1 = false ∧
    ¬ ((close_connection ⟨some (s "h1"), some (s "u"), some (s "p"), 22, none,
      some (s "/data"), some (s "/data"), some (some ()), some none⟩).2).sftpAttr ≠
        some none := by
  constructor
  · rfl
  · simp [close_connection]

/-- Claim C1 (counterexample): with a single host whose manager is `None`
(as on a freshly constructed coordinator that has not run
`_start_connection`), the stat step raises AttributeError — not an IOError
— so `exists` propagates the exception instead of returning `False`. -/
theorem multiExists_unconnected_host_raises :
    managerSftpStat true none true = .otherErr ∧
    multiExists [managerSftpStat true none true] = .error () ∧
    multiExists [managerSftpStat true none true] ≠ .ok false := by
  refine ⟨rfl, rfl, by simp [managerSftpStat, multiExists]⟩

/-- Witness for the amended C1 characterization at a concrete outcome list. -/
theorem multiExists_characterization_witness :
    (multiExists [StatOutcome.ok, StatOutcome.ioErr] = .ok true ↔
      ∀ o ∈ [StatOutcome.ok, StatOutcome.ioErr], o = .ok) ∧
    (multiExists [StatOutcome.ok, StatOutcome.ioErr] = .ok false ↔
      firstNonOk [StatOutcome.ok, StatOutcome.ioErr] = some .ioErr) ∧
    (multiExists [StatOutcome.ok, StatOutcome.ioErr] = .error () ↔
      firstNonOk [StatOutcome.ok, StatOutcome.ioErr] = some .otherErr) :=
  multiExists_characterization [StatOutcome.ok, StatOutcome.ioErr]

/-- Witness for the C2 fan-out theorem: two hosts, the first host's upload
fails (its destination is blocked by a directory) and returns `False`, the
second host is still attempted and succeeds. -/
theorem multiPutFile_fanout_witness :
    multiPutFile (s "a.txt") (Src.fileObj (s "a.txt") [1, 2]) (s "/d") 1
        [(⟨[[], [s "d"], [s "d", s "a.txt"]], []⟩ : RemoteFs),
         (⟨[[], [s "d"]], []⟩ : RemoteFs)] =
      .ok ([(⟨[[], [s "d"], [s "d", s "a.txt"]], []⟩ : RemoteFs),
            (⟨[[], [s "d"]], []⟩ : RemoteFs)].map
        (fun fs => exceptGetD
          (coordUpload (s "a.txt") (Src.fileObj (s "a.txt") [1, 2]) (s "/d") 1 fs)
          (false, fs))) :=
  multiPutFile_fanout (s "a.txt") (Src.fileObj (s "a.txt") [1, 2]) (s "/d") 1
    [(⟨[[], [s "d"], [s "d", s "a.txt"]], []⟩ : RemoteFs),
     (⟨[[], [s "d"]], []⟩ : RemoteFs)] (by decide)

/-- Witness for the C3 collision theorem: `/data` already holds `pic.jpg`,
so a second non-overwriting upload of `pic.jpg` is stored as `pic_1.jpg`
and the old file survives. -/
theorem upload_collision_suffix_witness :
    upload (⟨[[], [s "data"]], [([s "data", s "pic.jpg"], [7])]⟩ : RemoteFs)
        (Src.fileObj (s "pic.jpg") [9]) none (some (s "pic.jpg")) false
        (s "/data") (s "/data") 2 =
      .ok (true, ⟨[[], [s "data"]],
        (parsePath (candName (s "/data/pic.jpg") (s "/data/pic") (s ".jpg") 1),
          [9]) :: [([s "data", s "pic.jpg"], [7])]⟩) :=
  upload_collision_suffix
    (⟨[[], [s "data"]], [([s "data", s "pic.jpg"], [7])]⟩ : RemoteFs)
    (⟨[[], [s "data"]], [([s "data", s "pic.jpg"], [7])]⟩ : RemoteFs)
    (Src.fileObj (s "pic.jpg") [9]) none (some (s "pic.jpg"))
    (s "/data") (s "/data") 1 2
    (s "/data") (s "pic.jpg") (s "/data/pic.jpg") (s "/data/pic") (s ".jpg")
    (by decide) (by decide) rfl (by decide) (by decide)
    (by decide) (by decide) (by decide) (by decide) (by decide)

/-- Witness for the C4 overwrite theorem: the upload replaces the existing
content `[7]` at `/d/a.txt` with the new content `[5]`, exactly at the
requested path. -/
theorem upload_overwrite_exact_witness :
    upload (⟨[[], [s "d"]], [([s "d", s "a.txt"], [7])]⟩ : RemoteFs)
        (Src.fileObj (s "a.txt") [5]) none (some (s "a.txt")) true
        (s "/d") (s "/d") 1 =
      .ok (true, ⟨[[], [s "d"]],
        (parsePath (s "/d/a.txt"), [5]) ::
          [([s "d", s "a.txt"], [7])].filter
            (fun e => decide (e.1 ≠ parsePath (s "/d/a.txt")))⟩) ∧
    findData ⟨[[], [s "d"]],
        (parsePath (s "/d/a.txt"), [5]) ::
          [([s "d", s "a.txt"], [7])].filter
            (fun e => decide (e.1 ≠ parsePath (s "/d/a.txt")))⟩
      (parsePath (s "/d/a.txt")) = some [5] :=
  upload_overwrite_exact
    (⟨[[], [s "d"]], [([s "d", s "a.txt"], [7])]⟩ : RemoteFs)
    (⟨[[], [s "d"]], [([s "d", s "a.txt"], [7])]⟩ : RemoteFs)
    (Src.fileObj (s "a.txt") [5]) none (some (s "a.txt"))
    (s "/d") (s "/d") 1 (s "/d") (s "a.txt") (s "/d/a.txt")
    (by decide) (by decide) rfl (by decide) (by decide)
    (by decide) (by decide) (by decide)

/-- Witness for the C5 bug theorem: a fresh manager's `sftp` read yields no
handle and performs no reconnect, and the same holds right after a
successful `close_connection`. -/
theorem sftpProp_never_reconnects_witness :
    sftpProp true (initMgr (s "h1") (some (s "u")) (some (s "p")) none 22
        (some (s "/data"))) =
      .ok (none, initMgr (s "h1") (some (s "u")) (some (s "p")) none 22
        (some (s "/data"))) ∧
    sftpProp true ((close_connection ⟨some (s "h1"), some (s "u"), some (s "p"),
        22, none, some (s "/data"), some (s "/data"),
        some (some ()), some (some ())⟩).2) =
      .ok (none, (close_connection ⟨some (s "h1"), some (s "u"), some (s "p"),
        22, none, some (s "/data"), some (s "/data"),
        some (some ()), some (some ())⟩).2) :=
  ⟨(sftpProp_never_reconnects true).1 (s "h1") (some (s "u")) (some (s "p")) none 22
      (some (s "/data")),
   (sftpProp_never_reconnects true).2.1 ⟨some (s "h1"), some (s "u"), some (s "p"),
      22, none, some (s "/data"), some (s "/data"),
      some (some ()), some (some ())⟩ (by decide)⟩

/-- Witness for the C6 teardown theorem at a fully connected manager. -/
theorem close_connection_spec_witness :
    ((close_connection ⟨some (s "h1"), some (s "u"), some (s "p"), 22, none,
        some (s "/data"), some (s "/data"), some (some ()), some (some ())⟩).1 = true ↔
      (some (some ()) : Option (Option Unit)) = some (some ()) ∧
      (some (some ()) : Option (Option Unit)) = some (some ())) ∧
    ((close_connection ⟨some (s "h1"), some (s "u"), some (s "p"), 22, none,
        some (s "/data"), some (s "/data"), some (some ()), some (some ())⟩).2).hostname
      = none ∧
    ((close_connection ⟨some (s "h1"), some (s "u"), some (s "p"), 22, none,
        some (s "/data"), some (s "/data"), some (some ()), some (some ())⟩).2).username
      = none ∧
    ((close_connection ⟨some (s "h1"), some (s "u"), some (s "p"), 22, none,
        some (s "/data"), some (s "/data"), some (some ()), some (some ())⟩).2).password
      = none ∧
    ((close_connection ⟨some (s "h1"), some (s "u"), some (s "p"), 22, none,
        some (s "/data"), some (s "/data"), some (some ()), some (some ())⟩).2).port
      = 22 ∧
    ((close_connection ⟨some (s "h1"), some (s "u"), some (s "p"), 22, none,
        some (s "/data"), some (s "/data"), some (some ()), some (some ())⟩).2).rsa_key
      = none ∧
    ((close_connection ⟨some (s "h1"), some (s "u"), some (s "p"), 22, none,
        some (s "/data"), some (s "/data"), some (some ()), some (some ())⟩).2).basepath
      = none ∧
    ((close_connection ⟨some (s "h1"), some (s "u"), some (s "p"), 22, none,
        some (s "/data"), some (s "/data"), some (some ()), some (some ())⟩).2).currentpath
      = none ∧
    ((close_connection ⟨some (s "h1"), some (s "u"), some (s "p"), 22, none,
        some (s "/data"), some (s "/data"), some (some ()), some (some ())⟩).1 = true →
      ((close_connection ⟨some (s "h1"), some (s "u"), some (s "p"), 22, none,
        some (s "/data"), some (s "/data"), some (some ()), some (some ())⟩).2).sftpAttr
        = some none ∧
      ((close_connection ⟨some (s "h1"), some (s "u"), some (s "p"), 22, none,
        some (s "/data"), some (s "/data"), some (some ()), some (some ())⟩).2).sshAttr
        = some none) :=
  close_connection_spec ⟨some (s "h1"), some (s "u"), some (s "p"), 22, none,
    some (s "/data"), some (s "/data"), some (some ()), some (some ())⟩

/-- Witness for the amended C9 theorem: a manager with both handles `None`
fails to close; its config is nevertheless cleared and the handles are
left as they were. -/
theorem close_connection_false_state_witness :
    ((close_connection ⟨some (s "h2"), some (s "u2"), none, 2222, some (s "/k"),
        some (s "/b"), some (s "/b"), some none, some none⟩).2).hostname = none ∧
    ((close_connection ⟨some (s "h2"), some (s "u2"), none, 2222, some (s "/k"),
        some (s "/b"), some (s "/b"), some none, some none⟩).2).username = none ∧
    ((close_connection ⟨some (s "h2"), some (s "u2"), none, 2222, some (s "/k"),
        some (s "/b"), some (s "/b"), some none, some none⟩).2).password = none ∧
    ((close_connection ⟨some (s "h2"), some (s "u2"), none, 2222, some (s "/k"),
        some (s "/b"), some (s "/b"), some none, some none⟩).2).port = 22 ∧
    ((close_connection ⟨some (s "h2"), some (s "u2"), none, 2222, some (s "/k"),
        some (s "/b"), some (s "/b"), some none, some none⟩).2).rsa_key = none ∧
    ((close_connection ⟨some (s "h2"), some (s "u2"), none, 2222, some (s "/k"),
        some (s "/b"), some (s "/b"), some none, some none⟩).2).basepath = none ∧
    ((close_connection ⟨some (s "h2"), some (s "u2"), none, 2222, some (s "/k"),
        some (s "/b"), some (s "/b"), some none, some none⟩).2).currentpath = none ∧
    ((close_connection ⟨some (s "h2"), some (s "u2"), none, 2222, some (s "/k"),
        some (s "/b"), some (s "/b"), some none, some none⟩).2).sftpAttr =
      (⟨some (s "h2"), some (s "u2"), none, 2222, some (s "/k"),
        some (s "/b"), some (s "/b"), some none, some none⟩ : MgrState).sftpAttr ∧
    ((close_connection ⟨some (s "h2"), some (s "u2"), none, 2222, some (s "/k"),
        some (s "/b"), some (s "/b"), some none, some none⟩).2).sshAttr =
      (⟨some (s "h2"), some (s "u2"), none, 2222, some (s "/k"),
        some (s "/b"), some (s "/b"), some none, some none⟩ : MgrState).sshAttr :=
  close_connection_false_state ⟨some (s "h2"), some (s "u2"), none, 2222,
    some (s "/k"), some (s "/b"), some (s "/b"), some none, some none⟩ (by decide)

/-- Witness for the C7 idempotency theorem on the concrete nested path
`/data/sub` over a remote state holding only the root. -/
theorem mkdir_recursive_idempotent_witness :
    ∃ fs1, mkdirMgr (⟨[[]], []⟩ : RemoteFs) (glue [s "data", s "sub"]) true =
        .ok (fs1, glue [s "data", s "sub"]) ∧
      mkdirMgr fs1 (glue [s "data", s "sub"]) true =
        .ok (fs1, glue [s "data", s "sub"]) ∧
      mkdirMgr fs1 (glue [s "data", s "sub"]) false = .error () :=
  mkdir_recursive_idempotent [s "data", s "sub"] ⟨[[]], []⟩ (by decide) (by decide)
    (by decide) (by decide)

/-- Witness for the C8 validation theorem on one concrete configuration per
branch (the fifth input supplies both a password and a key file). -/
theorem decodeLocation_validation_witness :
    decodeLocation (fun _ => false)
        (⟨[], s "u", s "/b", s "p", [], [], [], [], [], [], none⟩ : Location) =
      .error .missingHostname ∧
    decodeLocation (fun _ => false)
        (⟨s "h", [], s "/b", s "p", [], [], [], [], [], [], none⟩ : Location) =
      .error .missingUsername ∧
    decodeLocation (fun _ => false)
        (⟨s "h", s "u", [], s "p", [], [], [], [], [], [], none⟩ : Location) =
      .error .missingBasepath ∧
    decodeLocation (fun _ => false)
        (⟨s "h", s "u", s "/b", [], [], [], [], [], [], [], none⟩ : Location) =
      .error .missingCredential ∧
    (∃ cfg, decodeLocation (fun _ => false)
        (⟨s "h", s "u", s "/b", s "p", s "/key", [], [], [], [], [], none⟩ : Location) =
        .ok cfg ∧ cfg.password = some (s "p") ∧ cfg.rsa_key = none) ∧
    decodeLocation (fun _ => false)
        (⟨s "h", s "u", s "/b", [], s "/key", [], [], [], [], [], none⟩ : Location) =
      .error .rsaKeyFileNotFound :=
  ⟨(decodeLocation_validation (fun _ => false)
      ⟨[], s "u", s "/b", s "p", [], [], [], [], [], [], none⟩).1 rfl,
   (decodeLocation_validation (fun _ => false)
      ⟨s "h", [], s "/b", s "p", [], [], [], [], [], [], none⟩).2.1 (by decide) rfl,
   (decodeLocation_validation (fun _ => false)
      ⟨s "h", s "u", [], s "p", [], [], [], [], [], [], none⟩).2.2.1
        (by decide) (by decide) rfl,
   (decodeLocation_validation (fun _ => false)
      ⟨s "h", s "u", s "/b", [], [], [], [], [], [], [], none⟩).2.2.2.1
        (by decide) (by decide) (by decide) rfl rfl,
   (decodeLocation_validation (fun _ => false)
      ⟨s "h", s "u", s "/b", s "p", s "/key", [], [], [], [], [], none⟩).2.2.2.2.1
        (by decide) (by decide) (by decide) (by decide),
   (decodeLocation_validation (fun _ => false)
      ⟨s "h", s "u", s "/b", [], s "/key", [], [], [], [], [], none⟩).2.2.2.2.2
        (by decide) (by decide) (by decide) rfl (by decide) rfl⟩

/-- Witness for the C10 theorem: a directly decoded config has no
`'location'` entry and `url` raises; after `_add_to_basepath` it succeeds;
the multi-host decoding behaves the same. -/
theorem url_requires_add_to_basepath_witness :
    ((⟨s "h", s "u", s "/b", s "http://", some (s "p"), none, 22, s "http://",
        s "h", s "80", [], none⟩ : SSHConfig).location = none ∧
      urlFor ⟨s "h", s "u", s "/b", s "http://", some (s "p"), none, 22, s "http://",
        s "h", s "80", [], none⟩ (s "x.png") = .error () ∧
      ∃ u, urlFor (addToBasepath ⟨s "h", s "u", s "/b", s "http://", some (s "p"),
        none, 22, s "http://", s "h", s "80", [], none⟩ (s "static")) (s "x.png") =
        .ok u) ∧
    ((⟨s "localhost", s "u", s "/b", s "http://", some (s "p"), none, 22, s "http://",
        s "localhost", s "80", [s "h1", s "h2"], none⟩ : SSHConfig).location = none ∧
      urlFor ⟨s "localhost", s "u", s "/b", s "http://", some (s "p"), none, 22,
        s "http://", s "localhost", s "80", [s "h1", s "h2"], none⟩ (s "x.png") =
        .error ()) :=
  ⟨(url_requires_add_to_basepath (fun _ => false)
      ⟨s "h", s "u", s "/b", s "p", [], [], [], [], [], [], some [s "h1", s "h2"]⟩
      ⟨s "h", s "u", s "/b", s "http://", some (s "p"), none, 22, s "http://",
        s "h", s "80", [], none⟩
      ⟨s "localhost", s "u", s "/b", s "http://", some (s "p"), none, 22, s "http://",
        s "localhost", s "80", [s "h1", s "h2"], none⟩
      (s "x.png") (s "static")).1 rfl,
   (url_requires_add_to_basepath (fun _ => false)
      ⟨s "h", s "u", s "/b", s "p", [], [], [], [], [], [], some [s "h1", s "h2"]⟩
      ⟨s "h", s "u", s "/b", s "http://", some (s "p"), none, 22, s "http://",
        s "h", s "80", [], none⟩
      ⟨s "localhost", s "u", s "/b", s "http://", some (s "p"), none, 22, s "http://",
        s "localhost", s "80", [s "h1", s "h2"], none⟩
      (s "x.png") (s "static")).2 rfl⟩
